import Mathlib

/-!
Verification of the acquisition-and-deduplication core of a continuous RSS
news scraper (Node.js).  The source components embedded here are:

* `NewsArticle` (src/models, exported in the repository bundle): the
  normalized item record;
* `MySQLDatabaseService.searchArticles` / `insertArticles`: the storage
  collaborator used by the duplicate resolver and the batch insert;
* `ContinuousScraper.checkArticleExists` / `filterNewArticles` /
  `performScrape`: the duplicate resolver and the scrape-cycle orchestrator;
* `NewsFetcher.filterByTime` / `removeDuplicates` / `sortByDate` /
  `fetchSource` / `fetchSourceWithRetry` / `fetchAllNews`: the fetch
  pipeline.

JavaScript strings are modelled as `String`; `null`/`undefined`-able fields
as `Option String`.  JavaScript date parsing (`new Date(s).getTime()`) is an
external collaborator and is modelled by a parameter
`parseDate : String → Option Int` where `none` stands for an invalid date
(`NaN`).  Storage queries that may reject are modelled with `Except`.
String helpers (`lowercase`, substring search, trimming, whitespace
splitting) are given as executable char-list functions mirroring the
JavaScript builtins on the ASCII data the program handles.
-/

/-- Lowercasing of a string, modelling `String.prototype.toLowerCase()`. -/
def lowerStr (s : String) : String := ⟨s.data.map Char.toLower⟩

/-- Boolean test that one char list is an initial segment of another. -/
def hasPreList : List Char → List Char → Bool
  | [], _ => true
  | _ :: _, [] => false
  | a :: as, b :: bs => a == b && hasPreList as bs

/-- Boolean test that `n` occurs as a contiguous run inside the second list. -/
def hasSubList (n : List Char) : List Char → Bool
  | [] => n.isEmpty
  | h :: t => hasPreList n (h :: t) || hasSubList n t

/-- Case-insensitive substring containment, modelling SQL
`column LIKE CONCAT(CHAR(37), term, CHAR(37))` under the case-insensitive
default collation of the `utf8mb4` tables created by the service. -/
def containsCI (hay needle : String) : Bool :=
  hasSubList (needle.data.map Char.toLower) (hay.data.map Char.toLower)

/-- Whitespace trimming over a char list (`String.prototype.trim()`). -/
def trimChars (cs : List Char) : List Char :=
  ((cs.dropWhile Char.isWhitespace).reverse.dropWhile Char.isWhitespace).reverse

/-- Trimming of a string, modelling `String.prototype.trim()`. -/
def trimStr (s : String) : String := ⟨trimChars s.data⟩

/-- Split a char list at every space character, modelling
`String.prototype.split(" ")` (adjacent separators yield empty fields). -/
def splitOnSpace : List Char → List (List Char)
  | [] => [[]]
  | c :: rest =>
    match splitOnSpace rest with
    | [] => [[c]]
    | h :: t => if c = ' ' then [] :: h :: t else (c :: h) :: t

/-- The normalized article record built by the `NewsArticle` constructor
(`src/models/NewsArticle.js`): absent `title`/`content`/`image`/`url`/
`duration` default to the empty string, absent `publishedDate` to `null`,
absent `source` to `"Unknown"`, absent `category` to `"general"`. -/
structure Article where
  title : String
  content : String
  image : String
  url : String
  publishedDate : Option String
  duration : String
  source : String
  category : String
deriving DecidableEq, Repr

/-- Validity check `NewsArticle.isValid`: the title is truthy and its
trimmed form is non-empty. -/
def isValidArticle (a : Article) : Bool :=
  !a.title.isEmpty && !(trimStr a.title).isEmpty

/-- Storage query `MySQLDatabaseService.searchArticles(searchTerm, limit)`:
`SELECT * FROM articles WHERE title LIKE %term% OR content LIKE %term%
ORDER BY published_date DESC, created_at DESC LIMIT limit`.  The `db` list
models the `articles` table already enumerated in the query's `ORDER BY`
order, so the SQL `LIMIT` is `List.take`. -/
def searchArticles (db : List Article) (term : String) (lim : Nat) : List Article :=
  (db.filter fun r => containsCI r.title term || containsCI r.content term).take lim

/-- Row outcome bookkeeping of `MySQLDatabaseService.insertArticles`:
each article is inserted individually, `insertArticle` returning `false`
instead of raising when its row fails; the pair counts
`(successCount, errorCount)`.  The per-row success is abstracted by the
oracle `ok`. -/
def insertArticlesCounts (ok : Article → Bool) : List Article → Nat × Nat
  | [] => (0, 0)
  | a :: rest =>
    let r := insertArticlesCounts ok rest
    if ok a then (r.1 + 1, r.2) else (r.1, r.2 + 1)

/-- Duplicate resolver `ContinuousScraper.checkArticleExists(article)` over
an abstract storage-query collaborator `search` whose calls may fail
(`Except.error` models a rejected promise).  The surrounding
`try { ... } catch { return false }` of the source is the two `.error`
branches.  Strategy 1 queries storage with the article's URL (limit 1) and
reports a duplicate on any hit; strategy 2 queries with the article's title
(limit 10) and reports a duplicate when some result has the same lowercase
title and the same source. -/
def checkArticleExists {ε : Type} (search : String → Nat → Except ε (List Article))
    (a : Article) : Bool :=
  match search a.url 1 with
  | .error _ => false
  | .ok existingByUrl =>
    if existingByUrl.length > 0 then true
    else
      match search a.title 10 with
      | .error _ => false
      | .ok existingByTitle =>
        (existingByTitle.find? fun ex =>
          lowerStr ex.title == lowerStr a.title && ex.source == a.source).isSome

/-- The duplicate resolver run against a concrete table state `db` with the
never-failing pure query of `searchArticles`. -/
def checkArticleExistsDB (db : List Article) (a : Article) : Bool :=
  checkArticleExists (ε := Unit) (fun term lim => Except.ok (searchArticles db term lim)) a

/-- Candidate selection `ContinuousScraper.filterNewArticles(articles)`:
keep exactly the articles the duplicate resolver reports as not existing
(the resolver never throws, so the per-article `catch` in the source is
dead code). -/
def filterNewArticles (db : List Article) (articles : List Article) : List Article :=
  articles.filter fun a => !(checkArticleExistsDB db a)

/-- Time-filtering configuration block `continuousConfig.timeFiltering`
(config/continuous.config.js). -/
structure TimeFilteringCfg where
  maxArticleAgeMinutes : Int
  enabled : Bool
  fallbackToAll : Bool
deriving DecidableEq, Repr

/-- The shipped configuration value `continuousConfig.timeFiltering`:
a 30-minute window, filtering enabled, undated articles dropped. -/
def continuousTimeFiltering : TimeFilteringCfg :=
  { maxArticleAgeMinutes := 30, enabled := true, fallbackToAll := false }

/-- Truthiness of the optional `publishedDate` field: JavaScript treats both
`null` and the empty string as falsy. -/
def hasDate : Option String → Bool
  | none => false
  | some s => !s.isEmpty

/-- Recency filter `NewsFetcher.filterByTime(articles)`: when filtering is
enabled, keep an article with a truthy `publishedDate` iff its parsed date
is at least `now - maxArticleAgeMinutes` (in milliseconds); keep an article
whose date is missing or parses to `NaN` iff `fallbackToAll` is set.  The
source's recent/old/fallback counters only feed a log line and are omitted;
its `try`/`catch` is dead because `new Date` never throws. -/
def filterByTime (cfg : TimeFilteringCfg) (parseDate : String → Option Int)
    (now : Int) (articles : List Article) : List Article :=
  if !cfg.enabled then articles
  else
    let cutoffTime : Int := now - cfg.maxArticleAgeMinutes * 60 * 1000
    articles.filter fun article =>
      match article.publishedDate with
      | none => cfg.fallbackToAll
      | some s =>
        if s.isEmpty then cfg.fallbackToAll
        else
          match parseDate s with
          | none => cfg.fallbackToAll
          | some t => cutoffTime ≤ t

/-- Intra-cycle dedup key used by `NewsFetcher.removeDuplicates`:
`article.title.toLowerCase() + "-" + article.url`. -/
def dedupKey (a : Article) : String := lowerStr a.title ++ "-" ++ a.url

/-- Loop of `NewsFetcher.removeDuplicates`, with the JavaScript `Set` of
already-seen keys made explicit as the `seen` accumulator. -/
def removeDuplicatesAux (seen : List String) : List Article → List Article
  | [] => []
  | a :: rest =>
    if dedupKey a ∈ seen then removeDuplicatesAux seen rest
    else a :: removeDuplicatesAux (dedupKey a :: seen) rest

/-- Cross-source dedup `NewsFetcher.removeDuplicates(articles)`: filter the
list keeping only the first occurrence of every dedup key. -/
def removeDuplicates (articles : List Article) : List Article :=
  removeDuplicatesAux [] articles

/-- Numeric date of an article as used by `NewsFetcher.sortByDate`:
`new Date(article.publishedDate || 0).getTime()`.  A falsy field (missing or
empty) yields the epoch `0`; a present string parses via the date
collaborator, `none` standing for `NaN`. -/
def dateValue (parseDate : String → Option Int) (a : Article) : Option Int :=
  match a.publishedDate with
  | none => some 0
  | some s => if s.isEmpty then some 0 else parseDate s

/-- Comparator of `NewsFetcher.sortByDate`: `dateB - dateA`, with a `NaN`
result coerced to `+0` exactly as ECMAScript's `SortCompare` does. -/
def cmpDate (parseDate : String → Option Int) (a b : Article) : Int :=
  match dateValue parseDate b, dateValue parseDate a with
  | some tb, some ta => tb - ta
  | _, _ => 0

/-- Stable insertion of an article into an already-sorted run: the article
goes in front of the first element it does not strictly follow, which is the
order any stable comparator sort (mandated by ECMAScript) produces. -/
def insertSorted (parseDate : String → Option Int) (a : Article) :
    List Article → List Article
  | [] => [a]
  | x :: xs =>
    if cmpDate parseDate a x ≤ 0 then a :: x :: xs
    else x :: insertSorted parseDate a xs

/-- Sorting `NewsFetcher.sortByDate(articles)` as a stable sort by the
`cmpDate` comparator (newest first). -/
def sortByDate (parseDate : String → Option Int) (articles : List Article) :
    List Article :=
  articles.foldr (insertSorted parseDate) []

/-- One entry of a feed (name, endpoint, category) from the static registry
consumed by `NewsFetcher`. -/
structure FeedSource where
  name : String
  url : String
  category : String
deriving DecidableEq, Repr

/-- Raw feed entry as surfaced by the `rss-parser` collaborator; every field
the fetcher reads is optional (`undefined` when absent). -/
structure FeedItem where
  title : Option String := none
  link : Option String := none
  contentSnippet : Option String := none
  description : Option String := none
  contentHtml : Option String := none
  pubDate : Option String := none
  mediaContentUrl : Option String := none
  mediaThumbnailUrl : Option String := none
  itunesImageHref : Option String := none
  enclosureUrl : Option String := none
  itunesDuration : Option String := none
deriving DecidableEq, Repr

/-- JavaScript `a || b` over an optional string and a string default:
`a` wins iff it is present and non-empty. -/
def jsOrS (a : Option String) (b : String) : String :=
  match a with
  | none => b
  | some s => if s.isEmpty then b else s

/-- JavaScript `a || b` over two optional strings. -/
def jsOrO (a b : Option String) : Option String :=
  match a with
  | none => b
  | some s => if s.isEmpty then b else some s

/-- State machine of the global regex replace `content.replace(/<[^>]*>/g, "")`:
outside a tag, chars are copied and `<` opens a candidate tag; inside a
candidate tag, chars accumulate until `>` closes (and discards) it, while a
candidate left unclosed at the end of input is restored verbatim, matching
the regex finding no match there. -/
def stripTagsAux : List Char → Option (List Char) → List Char
  | [], none => []
  | [], some pending => '<' :: pending.reverse
  | c :: cs, none =>
    if c = '<' then stripTagsAux cs (some []) else c :: stripTagsAux cs none
  | c :: cs, some pending =>
    if c = '>' then stripTagsAux cs none else stripTagsAux cs (some (c :: pending))

/-- HTML-stripping used in `NewsFetcher.extractContent`:
`item.content.replace(/<[^>]*>/g, "").trim()`. -/
def stripHtmlTrim (s : String) : String := trimStr ⟨stripTagsAux s.data none⟩

/-- Body-text extraction `NewsFetcher.extractContent(item)`:
`item.contentSnippet || item.description || item.content?.replace(...).trim() || ""`. -/
def extractContent (it : FeedItem) : String :=
  jsOrS it.contentSnippet (jsOrS it.description (jsOrS (it.contentHtml.map stripHtmlTrim) ""))

/-- Image extraction `NewsFetcher.extractImage(item)`: media-content URL,
then media-thumbnail URL, then itunes image, then enclosure URL, else null. -/
def extractImage (it : FeedItem) : Option String :=
  jsOrO it.mediaContentUrl (jsOrO it.mediaThumbnailUrl
    (jsOrO it.itunesImageHref (jsOrO it.enclosureUrl none)))

/-- Duration extraction `NewsFetcher.extractDuration(item)`. -/
def extractDuration (it : FeedItem) : Option String :=
  jsOrO it.itunesDuration none

/-- Date display-formatting `NewsFetcher.formatDate(pubDate)`: a falsy input
yields null, otherwise the locale formatter `fmtDate` (an external
collaborator modelling `toLocaleDateString`, which never throws) is applied. -/
def formatDate (fmtDate : String → String) (pubDate : Option String) : Option String :=
  match pubDate with
  | none => none
  | some s => if s.isEmpty then none else some (fmtDate s)

/-- Entry mapping `NewsFetcher.parseItem(item, source)`: entries with a falsy
title or link map to null; otherwise a `NewsArticle` is constructed (with the
constructor's falsy-field defaults applied). -/
def parseItem (fmtDate : String → String) (source : FeedSource) (it : FeedItem) :
    Option Article :=
  match it.title, it.link with
  | some t, some l =>
    if t.isEmpty || l.isEmpty then none
    else some
      { title := trimStr t
        content := extractContent it
        image := jsOrS (extractImage it) ""
        url := l
        publishedDate :=
          match formatDate fmtDate it.pubDate with
          | none => none
          | some d => if d.isEmpty then none else some d
        duration := jsOrS (extractDuration it) ""
        source := if source.name.isEmpty then "Unknown" else source.name
        category := if source.category.isEmpty then "general" else source.category }
  | _, _ => none

/-- Single fetch `NewsFetcher.fetchSource(source)`: the parsing collaborator
either yields the feed's entries, which are mapped through `parseItem` and
kept when valid (a malformed entry is dropped, never failing the feed), or
fails, in which case the error is rethrown as
`"Failed to fetch <name>: <message>"`. -/
def fetchSource (fmtDate : String → String) (source : FeedSource)
    (parseResult : Except String (List FeedItem)) : Except String (List Article) :=
  match parseResult with
  | .error msg => .error ("Failed to fetch " ++ source.name ++ ": " ++ msg)
  | .ok items => .ok (items.filterMap fun it =>
      match parseItem fmtDate source it with
      | some article => if isValidArticle article then some article else none
      | none => none)

/-- Retry loop of `NewsFetcher.fetchSourceWithRetry(source, maxRetries)`,
instrumented with the trace of attempt numbers made and of the backoff
delays awaited (`delay(1000 * attempt)` after each failed non-final
attempt).  `attempt` is the loop counter and `rem` the remaining loop
iterations (`maxRetries - attempt + 1`); the result is `none` exactly when
the loop body never runs (`maxRetries = 0`, the JavaScript `undefined`). -/
def retryAux (fetch : Nat → Except String (List Article)) :
    Nat → Nat → Option (Except String (List Article)) × List Nat × List Nat
  | _, 0 => (none, [], [])
  | attempt, rem + 1 =>
    match fetch attempt with
    | .ok v => (some (.ok v), [attempt], [])
    | .error e =>
      if rem = 0 then (some (.error e), [attempt], [])
      else
        let r := retryAux fetch (attempt + 1) rem
        (r.1, attempt :: r.2.1, 1000 * attempt :: r.2.2)

/-- Fetch with retry `NewsFetcher.fetchSourceWithRetry(source, maxRetries)`
starting at attempt 1. -/
def fetchSourceWithRetry (fetch : Nat → Except String (List Article))
    (maxRetries : Nat) : Option (Except String (List Article)) × List Nat × List Nat :=
  retryAux fetch 1 maxRetries

/-- Per-source failure test used when characterizing `fetchAllNews`:
the retried fetch (default 3 attempts) ended in an error. -/
def sourceFailed (fmtDate : String → String)
    (parseAt : FeedSource → Nat → Except String (List FeedItem))
    (src : FeedSource) : Bool :=
  match (fetchSourceWithRetry (fun j => fetchSource fmtDate src (parseAt src j)) 3).1 with
  | some (.error _) => true
  | _ => false

/-- Loop body of `NewsFetcher.fetchAllNews()` for one source: on success the
source's articles pass the recency filter and are appended to the
accumulator; on failure the source's name is appended to `failedSources`. -/
def fetchStep (cfg : TimeFilteringCfg) (parseDate : String → Option Int)
    (now : Int) (fmtDate : String → String)
    (parseAt : FeedSource → Nat → Except String (List FeedItem))
    (acc : List Article × List String) (src : FeedSource) :
    List Article × List String :=
  match (fetchSourceWithRetry (fun j => fetchSource fmtDate src (parseAt src j)) 3).1 with
  | some (.ok articles) => (acc.1 ++ filterByTime cfg parseDate now articles, acc.2)
  | some (.error _) => (acc.1, acc.2 ++ [src.name])
  | none => (acc.1, acc.2)

/-- Whole-cycle fetch `NewsFetcher.fetchAllNews()`: every registered source
is fetched with retry (the default 3 attempts); a source that still fails is
recorded in `failedSources` and skipped; survivors pass the recency filter
and are accumulated; finally the accumulated list is deduplicated and
sorted.  Returns `(sortedArticles, failedSources)`. -/
def fetchAllNews (cfg : TimeFilteringCfg) (parseDate : String → Option Int)
    (now : Int) (fmtDate : String → String) (sources : List FeedSource)
    (parseAt : FeedSource → Nat → Except String (List FeedItem)) :
    List Article × List String :=
  let r := sources.foldl (fetchStep cfg parseDate now fmtDate parseAt) ([], [])
  (sortByDate parseDate (removeDuplicates r.1), r.2)

/-- Error-handling configuration block `continuousConfig.errorHandling`
(config/continuous.config.js). -/
structure ErrorHandlingCfg where
  maxConsecutiveErrors : Nat
  retryDelayMinutes : Nat
  continueOnSourceError : Bool
deriving DecidableEq, Repr

/-- The shipped configuration value `continuousConfig.errorHandling` of
config/continuous.config.js (24/7 tuning). -/
def continuousErrorHandling : ErrorHandlingCfg :=
  { maxConsecutiveErrors := 10, retryDelayMinutes := 1, continueOnSourceError := true }

/-- Mutable counters of a `ContinuousScraper` instance relevant to cycle
accounting, plus the stop/exit bits: `isRunning` is cleared by `stop()`, and
`exitedAbnormally` records the `process.exit(1)` issued after too many
consecutive errors. -/
structure ScraperState where
  isRunning : Bool
  totalScrapes : Nat
  totalArticlesAdded : Nat
  consecutiveErrors : Nat
  exitedAbnormally : Bool
deriving DecidableEq, Repr

/-- Counters of a freshly started scraper, after `start()` has initialized
the database and set `isRunning`. -/
def initialScraperState : ScraperState :=
  { isRunning := true, totalScrapes := 0, totalArticlesAdded := 0
    consecutiveErrors := 0, exitedAbnormally := false }

/-- Outcome of the body of one `performScrape()` call: either the fetch
pipeline delivered a list of articles and the cycle ran to completion, or
some awaited step rejected and control reached the `catch` block. -/
inductive CycleOutcome where
  | fetched (articles : List Article)
  | threw
deriving DecidableEq

/-- One cycle `ContinuousScraper.performScrape()` against table state `db`:
`totalScrapes` is incremented first (before any fallible step); on
completion the non-duplicate articles are batch-inserted,
`totalArticlesAdded` grows by their count and `consecutiveErrors` resets;
in the `catch` block `consecutiveErrors` is incremented and, once it
reaches `maxConsecutiveErrors`, `stop()` clears `isRunning` and
`process.exit(1)` ends the host abnormally. -/
def performScrape (cfg : ErrorHandlingCfg) (db : List Article)
    (s : ScraperState) (o : CycleOutcome) : ScraperState :=
  let s1 := { s with totalScrapes := s.totalScrapes + 1 }
  match o with
  | .fetched articles =>
    let newArticles := filterNewArticles db articles
    let s2 :=
      if newArticles.length > 0 then
        { s1 with totalArticlesAdded := s1.totalArticlesAdded + newArticles.length }
      else s1
    { s2 with consecutiveErrors := 0 }
  | .threw =>
    let ce := s1.consecutiveErrors + 1
    if cfg.maxConsecutiveErrors ≤ ce then
      { s1 with consecutiveErrors := ce, isRunning := false, exitedAbnormally := true }
    else
      { s1 with consecutiveErrors := ce }

/-- The interval scheduler set up by `start()`: each tick runs
`performScrape` only when `isRunning` is still set (and a process that has
exited runs nothing at all). -/
def runCycles (cfg : ErrorHandlingCfg) (db : List Article) :
    ScraperState → List CycleOutcome → ScraperState
  | s, [] => s
  | s, o :: rest =>
    if s.isRunning then runCycles cfg db (performScrape cfg db s o) rest
    else runCycles cfg db s rest

/-- Lowercase whitespace tokens of a string, the token set of the
specification's Jaccard similarity. -/
def specTokens (s : String) : List String :=
  ((splitOnSpace (lowerStr s).data).map fun w => (⟨w⟩ : String)).filter fun w => !w.isEmpty

/-- Jaccard similarity strictly above 0.8, over deduplicated lowercase
whitespace tokens: `5 * |intersection| > 4 * |union|`. -/
def jaccardGt08 (s1 s2 : String) : Bool :=
  let w1 := (specTokens s1).dedup
  let w2 := (specTokens s2).dedup
  let inter := w1.filter fun w => w2.contains w
  let union := (w1 ++ w2).dedup
  5 * inter.length > 4 * union.length

/-- First `n` whitespace words of a string, rejoined with single spaces, the
specification's query phrase for the content-similarity strategy. -/
def firstWords (n : Nat) (s : String) : String :=
  String.intercalate " " (((splitOnSpace s.data).map fun w => (⟨w⟩ : String)).take n)

/-- Modelled from the spec: the three-strategy duplicate resolver described
in spec section 4.4, which the source's `checkArticleExists` is claimed to
implement.  Strategy 1 is an exact `canonicalUrl` match; strategy 2 a
case-insensitive title plus exact source match; strategy 3, only for bodies
longer than 50 characters, queries storage with the first 20 words of the
body and reports a duplicate when some same-source result's title has
Jaccard similarity above 0.8 with the item's title.  No such
content-similarity strategy exists anywhere in the repository's code; this
definition follows the spec's words and serves only for comparison. -/
def duplicateResolverSpec (db : List Article) (a : Article) : Bool :=
  if db.any fun r => r.url == a.url then true
  else if db.any fun r => lowerStr r.title == lowerStr a.title && r.source == a.source then
    true
  else if a.content.length > 50 then
    let phrase := firstWords 20 a.content
    (db.filter fun r => containsCI r.title phrase || containsCI r.content phrase).any
      fun r => r.source == a.source && jaccardGt08 r.title a.title
  else false

/-- Default-valued article helper for concrete instances. -/
def mkArticle (title content url source : String) : Article :=
  { title := title, content := content, image := "", url := url
    publishedDate := none, duration := "", source := source, category := "general" }

/-- Numeric sort key with `NaN` defaulted, used only to state sortedness of
`sortByDate` on inputs whose date values are all defined. -/
def valD (parseDate : String → Option Int) (a : Article) : Int :=
  (dateValue parseDate a).getD 0

/-- Concrete incoming item for the content-similarity comparison: body text
of 69 characters, title sharing 5 of 6 tokens with the stored row's title. -/
def c1Item : Article :=
  mkArticle "alpha beta gamma delta epsilon"
    "alpha beta gamma delta epsilon body words one two three four five six"
    "http://new.example/a1" "S"

/-- Concrete stored row for the content-similarity comparison: same source,
title Jaccard-similar to `c1Item`'s (5/6 > 0.8), body containing `c1Item`'s
first 20 words, but a different URL and a different exact title. -/
def c1Row : Article :=
  mkArticle "alpha beta gamma delta epsilon zeta"
    "alpha beta gamma delta epsilon body words one two three four five six trailing tail"
    "http://old.example/z9" "S"

/-- Table state for the content-similarity comparison. -/
def c1Db : List Article := [c1Row]

/-- Concrete stored row whose URL the incoming `c2Item` shares exactly. -/
def c2Row : Article :=
  mkArticle "Old market headline" "Body text" "http://site.example/story-1" "S"

/-- Concrete incoming item with the same `article_url` as the stored
`c2Row` but an unrelated title. -/
def c2Item : Article :=
  mkArticle "Completely different title" "x" "http://site.example/story-1" "S"

/-- Table state holding exactly the row sharing `c2Item`'s URL. -/
def c2Db : List Article := [c2Row]

/-- Concrete article used to exercise the resolver under failing storage. -/
def c3Article : Article := mkArticle "some title" "some body" "http://e.example/1" "S"

/-- Storage-query stub whose every call rejects. -/
def c3FailingSearch : String → Nat → Except String (List Article) :=
  fun _ _ => .error "connection lost"

/-- Undated article used to instantiate the recency-filter theorem. -/
def c5Undated : Article := mkArticle "undated" "body" "http://e.example/u" "S"

/-- Feed source used to instantiate the retry theorem. -/
def c7Source : FeedSource := { name := "Al Jazeera", url := "https://e.example/rss", category := "international" }

/-- Per-attempt parse outcomes in which every attempt fails. -/
def c7ParseAt : Nat → Except String (List FeedItem) := fun _ => .error "timeout"

/-- Articles used to instantiate the sort theorem: two parsable dates. -/
def c8ParseDate : String → Option Int :=
  fun s => if s = "Jan 1, 2024" then some 1704000000 else
           if s = "Jan 2, 2024" then some 1704100000 else none

/-- Article whose `publishedDate` does not parse (JavaScript `NaN`). -/
def c8Bad : Article :=
  { mkArticle "bad date" "" "http://e.example/b" "S" with publishedDate := some "Invalid Date" }

/-- Article with a parsable, recent `publishedDate`. -/
def c8Good : Article :=
  { mkArticle "good date" "" "http://e.example/g" "S" with publishedDate := some "Jan 2, 2024" }

/-- Article with the older of the two parsable dates. -/
def c8Old : Article :=
  { mkArticle "old date" "" "http://e.example/o" "S" with publishedDate := some "Jan 1, 2024" }

/-- Article whose single row the batch insert fails to persist. -/
def c9Article : Article := mkArticle "fresh story" "body" "http://e.example/n1" "S"

/-- Incoming item whose exact-lowercase-title, same-source duplicate sits
beyond the first ten title-query results. -/
def c10Item : Article := mkArticle "port dock story" "" "http://n.example/p" "S"

/-- Decoy rows: their titles contain the searched title as a substring, so
they fill the 10-result limit, but they belong to another source. -/
def c10Decoy (k : Nat) : Article :=
  mkArticle ("u" ++ toString k ++ " port dock story") "" ("http://d.example/" ++ toString k) "T"

/-- The genuine duplicate: same source, title equal to `c10Item`'s up to
case, listed after the ten decoys in the query order. -/
def c10Dup : Article := mkArticle "Port Dock Story" "" "http://d.example/dup" "S"

/-- Table state: ten decoys ahead of the genuine duplicate in the query's
`ORDER BY` order. -/
def c10Db : List Article := (List.range 10).map c10Decoy ++ [c10Dup]

/-- Parsed publication date of an article as the recency filter sees it:
`none` when the field is falsy or parses to `NaN`. -/
def parsedPublishedDate (parseDate : String → Option Int) (a : Article) : Option Int :=
  match a.publishedDate with
  | none => none
  | some s => if s.isEmpty then none else parseDate s

/-- The per-attempt fetch of one source, `this.fetchSource(source)` as
called by the retry loop: attempt `j` observes the parsing collaborator's
`j`-th outcome. -/
def sourceFetch (fmtDate : String → String) (source : FeedSource)
    (parseAt : Nat → Except String (List FeedItem)) :
    Nat → Except String (List Article) :=
  fun j => fetchSource fmtDate source (parseAt j)

/-- C1 (amended): the duplicate resolver `checkArticleExists` evaluates two
escalating strategies in order, short-circuiting on the first positive
match: (1) a storage query with the item's URL (limit 1), any hit counting;
(2) a storage query with the item's title (limit 10), a hit counting only
when some result's title matches case-insensitively and its source name
matches exactly.  There is no third, content-similarity strategy; an item
matching neither strategy is reported new. -/
theorem checkArticleExists_two_strategies (db : List Article) (a : Article) :
    checkArticleExistsDB db a = true ↔
      (searchArticles db a.url 1 ≠ [] ∨
       ∃ r ∈ searchArticles db a.title 10,
         lowerStr r.title = lowerStr a.title ∧ r.source = a.source) := by
  simp only [checkArticleExistsDB, checkArticleExists]
  by_cases h : (searchArticles db a.url 1).length > 0
  · rw [if_pos h]
    simp [List.ne_nil_of_length_pos h]
  · rw [if_neg h]
    have hnil : searchArticles db a.url 1 = [] := by
      cases hq : searchArticles db a.url 1 with
      | nil => rfl
      | cons x xs => rw [hq] at h; simp at h
    simp [hnil, List.find?_isSome, Bool.and_eq_true, beq_iff_eq]

/-- C1 (counterexample): on a stored row whose title is Jaccard-similar
(5/6 > 0.8) to the incoming item's title, with the same source, a body
containing the item's first 20 words, and the item's body longer than 50
characters, the spec's three-strategy resolver reports a duplicate while
the code's `checkArticleExists` reports the item new: no content-similarity
strategy exists in the code. -/
theorem checkArticleExists_lacks_similarity_strategy :
    duplicateResolverSpec c1Db c1Item = true ∧
      checkArticleExistsDB c1Db c1Item = false := by decide

/-- C2: an incoming item whose `canonicalUrl` exactly equals the stored
`article_url` of a persisted row is nevertheless reported new when the
titles differ, because the "URL check" passes the URL to `searchArticles`,
which matches it only against the `title` and `content` columns, never
against `article_url`. -/
theorem url_duplicate_reported_new :
    c2Row ∈ c2Db ∧ c2Row.url = c2Item.url ∧
      checkArticleExistsDB c2Db c2Item = false := by decide

/-- C3: the duplicate-existence check never propagates a storage failure:
if the URL query fails, or the URL query returns no rows and the title
query fails, `checkArticleExists` returns `false` (item treated as new).
Together with its `Bool` codomain (totality), this is the source's
`try`/`catch` contract. -/
theorem checkArticleExists_storage_error_false {ε : Type}
    (search : String → Nat → Except ε (List Article)) (a : Article) :
    (∀ e, search a.url 1 = .error e → checkArticleExists search a = false) ∧
    (∀ e l, search a.url 1 = .ok l → l.length = 0 → search a.title 10 = .error e →
      checkArticleExists search a = false) := by
  constructor
  · intro e he
    simp [checkArticleExists, he]
  · intro e l hl hlen he
    simp [checkArticleExists, hl, hlen, he]

/-- Witness for C3: with a storage stub whose every query rejects, the
resolver returns `false` on a concrete article. -/
theorem checkArticleExists_storage_error_false_witness :
    checkArticleExists c3FailingSearch c3Article = false :=
  (checkArticleExists_storage_error_false c3FailingSearch c3Article).1
    "connection lost" rfl

/-- C10: the title-plus-source strategy inspects only the first 10 records
of the title query: in a table where ten same-substring rows from another
source precede the genuine case-insensitive-title, same-source duplicate,
the resolver misses the duplicate (the URL query also missing) and the item
is kept as new by `filterNewArticles`. -/
theorem title_limit_hides_duplicate :
    checkArticleExistsDB c10Db c10Item = false ∧
      (∃ r ∈ c10Db, lowerStr r.title = lowerStr c10Item.title ∧ r.source = c10Item.source) ∧
      (searchArticles c10Db c10Item.title 10).length = 10 ∧
      c10Dup ∉ searchArticles c10Db c10Item.title 10 ∧
      filterNewArticles c10Db [c10Item] = [c10Item] := by decide

/-- Aggregate counting contract of the batch insert: `successCount` counts
exactly the rows the per-row oracle accepts, and every row is accounted for
(success plus failure counts equal the batch size) — row failures never
abort the batch. -/
theorem insertArticlesCounts_spec (ok : Article → Bool) (l : List Article) :
    (insertArticlesCounts ok l).1 = l.countP ok ∧
      (insertArticlesCounts ok l).1 + (insertArticlesCounts ok l).2 = l.length := by
  induction l with
  | nil => simp [insertArticlesCounts]
  | cons a rest ih =>
    rcases ih with ⟨ih1, ih2⟩
    by_cases h : ok a = true
    · simp [insertArticlesCounts, h, ih1, List.countP_cons]
      omega
    · rw [Bool.not_eq_true] at h
      simp [insertArticlesCounts, h, ih1, List.countP_cons]
      omega

/-- C9 (amended): after a completed cycle, `totalArticlesAdded` grows by the
number of candidate new articles handed to the batch insert
(`newArticles.length`), not by the number of rows actually persisted; the
insert itself reports aggregate success/failure counts in which failed rows
are counted but never abort the batch. -/
theorem totalAdded_is_candidate_count (cfg : ErrorHandlingCfg) (db : List Article)
    (s : ScraperState) (articles : List Article) (ok : Article → Bool) :
    (performScrape cfg db s (.fetched articles)).totalArticlesAdded
        = s.totalArticlesAdded + (filterNewArticles db articles).length ∧
      (insertArticlesCounts ok (filterNewArticles db articles)).1
        = (filterNewArticles db articles).countP ok ∧
      (insertArticlesCounts ok (filterNewArticles db articles)).1
          + (insertArticlesCounts ok (filterNewArticles db articles)).2
        = (filterNewArticles db articles).length := by
  refine ⟨?_, (insertArticlesCounts_spec ok _).1, (insertArticlesCounts_spec ok _).2⟩
  by_cases h : (filterNewArticles db articles).length > 0
  · simp [performScrape, h]
  · have hl : (filterNewArticles db articles).length = 0 := Nat.eq_zero_of_not_pos h
    simp [performScrape, h, hl]

/-- C9 (counterexample): a completed cycle with one candidate article whose
row the insert fails to persist still increases `totalArticlesAdded` by 1,
while the persisted count is 0 — the statistic tracks candidates, not
persisted rows. -/
theorem totalAdded_not_persisted_count :
    (performScrape continuousErrorHandling [] initialScraperState
        (.fetched [c9Article])).totalArticlesAdded = 1 ∧
      (insertArticlesCounts (fun _ => false) (filterNewArticles [] [c9Article])).1 = 0 ∧
      (1 : Nat) ≠ 0 := by decide

/-- C5: with filtering enabled, `filterByTime` is exactly the filter keeping
an article with a parsable `publishedAt` iff its date is at least
`now - maxAgeMinutes` (in milliseconds), and an article with a missing or
unparsable `publishedAt` iff `fallbackToAll` is set; no other article is
kept. -/
theorem filterByTime_keeps_iff (cfg : TimeFilteringCfg)
    (parseDate : String → Option Int) (now : Int) (articles : List Article)
    (h : cfg.enabled = true) :
    (filterByTime cfg parseDate now articles = articles.filter fun a =>
        match parsedPublishedDate parseDate a with
        | some t => decide (now - cfg.maxArticleAgeMinutes * 60 * 1000 ≤ t)
        | none => cfg.fallbackToAll) ∧
      (∀ a, a ∈ filterByTime cfg parseDate now articles ↔ a ∈ articles ∧
        ((∃ t, parsedPublishedDate parseDate a = some t ∧
            now - cfg.maxArticleAgeMinutes * 60 * 1000 ≤ t) ∨
         (parsedPublishedDate parseDate a = none ∧ cfg.fallbackToAll = true))) := by
  have heq : filterByTime cfg parseDate now articles = articles.filter fun a =>
      match parsedPublishedDate parseDate a with
      | some t => decide (now - cfg.maxArticleAgeMinutes * 60 * 1000 ≤ t)
      | none => cfg.fallbackToAll := by
    simp only [filterByTime, h, Bool.not_true, Bool.false_eq_true, if_false]
    apply List.filter_congr
    intro a _
    cases hd : a.publishedDate with
    | none => simp [parsedPublishedDate, hd]
    | some s =>
      cases hs : s.isEmpty with
      | true => simp [parsedPublishedDate, hd, hs]
      | false =>
        cases hp : parseDate s with
        | none => simp [parsedPublishedDate, hd, hs, hp]
        | some t => simp [parsedPublishedDate, hd, hs, hp]
  refine ⟨heq, fun a => ?_⟩
  rw [heq, List.mem_filter]
  constructor
  · rintro ⟨ha, hp⟩
    refine ⟨ha, ?_⟩
    cases hpd : parsedPublishedDate parseDate a with
    | none =>
      right
      rw [hpd] at hp
      exact ⟨rfl, hp⟩
    | some t =>
      left
      rw [hpd] at hp
      simp at hp
      exact ⟨t, rfl, by omega⟩
  · rintro ⟨ha, hp | hp⟩
    · rcases hp with ⟨t, hpt, hle⟩
      refine ⟨ha, ?_⟩
      rw [hpt]
      simp
      omega
    · refine ⟨ha, ?_⟩
      rw [hp.1]
      simpa using hp.2

/-- Witness for C5: the shipped configuration (enabled, no fallback) drops a
concrete undated article. -/
theorem filterByTime_keeps_iff_witness :
    c5Undated ∈ filterByTime continuousTimeFiltering (fun _ => none) 0 [c5Undated] ↔
      c5Undated ∈ [c5Undated] ∧
        ((∃ t, parsedPublishedDate (fun _ => none) c5Undated = some t ∧
            0 - continuousTimeFiltering.maxArticleAgeMinutes * 60 * 1000 ≤ t) ∨
         (parsedPublishedDate (fun _ => none) c5Undated = none ∧
            continuousTimeFiltering.fallbackToAll = true)) :=
  (filterByTime_keeps_iff continuousTimeFiltering (fun _ => none) 0 [c5Undated] rfl).2
    c5Undated


/-- The dedup loop emits a sublist of its input (order preserved, nothing
invented). -/
theorem removeDuplicatesAux_sublist (l : List Article) :
    ∀ seen, List.Sublist (removeDuplicatesAux seen l) l := by
  induction l with
  | nil => intro seen; simp [removeDuplicatesAux]
  | cons a rest ih =>
    intro seen
    by_cases h : dedupKey a ∈ seen
    · rw [removeDuplicatesAux, if_pos h]
      exact (ih seen).cons a
    · rw [removeDuplicatesAux, if_neg h]
      exact (ih (dedupKey a :: seen)).cons₂ a

/-- No emitted article carries a key already recorded as seen. -/
theorem removeDuplicatesAux_not_seen (l : List Article) :
    ∀ seen b, b ∈ removeDuplicatesAux seen l → dedupKey b ∉ seen := by
  induction l with
  | nil => intro seen b hb; simp [removeDuplicatesAux] at hb
  | cons a rest ih =>
    intro seen b hb
    by_cases h : dedupKey a ∈ seen
    · rw [removeDuplicatesAux, if_pos h] at hb
      exact ih seen b hb
    · rw [removeDuplicatesAux, if_neg h] at hb
      rcases List.mem_cons.mp hb with hb | hb
      · subst hb; exact h
      · have hrec := ih (dedupKey a :: seen) b hb
        intro hmem
        exact hrec (List.mem_cons_of_mem _ hmem)

/-- Emitted keys are pairwise distinct. -/
theorem removeDuplicatesAux_nodup_keys (l : List Article) :
    ∀ seen, ((removeDuplicatesAux seen l).map dedupKey).Nodup := by
  induction l with
  | nil => intro seen; simp [removeDuplicatesAux]
  | cons a rest ih =>
    intro seen
    by_cases h : dedupKey a ∈ seen
    · rw [removeDuplicatesAux, if_pos h]
      exact ih seen
    · rw [removeDuplicatesAux, if_neg h]
      rw [List.map_cons]
      refine List.Nodup.cons ?_ (ih (dedupKey a :: seen))
      intro hmem
      rcases List.mem_map.mp hmem with ⟨b, hb, hkey⟩
      have := removeDuplicatesAux_not_seen rest (dedupKey a :: seen) b hb
      exact this (hkey ▸ List.mem_cons_self _ _)

/-- Every input key not yet seen is represented among the emitted articles. -/
theorem removeDuplicatesAux_covers (l : List Article) :
    ∀ seen a, a ∈ l → dedupKey a ∉ seen →
      ∃ b ∈ removeDuplicatesAux seen l, dedupKey b = dedupKey a := by
  induction l with
  | nil => intro seen a ha _; simp at ha
  | cons x rest ih =>
    intro seen a ha hseen
    by_cases h : dedupKey x ∈ seen
    · rw [removeDuplicatesAux, if_pos h]
      rcases List.mem_cons.mp ha with ha | ha
      · subst ha; exact absurd h hseen
      · exact ih seen a ha hseen
    · rw [removeDuplicatesAux, if_neg h]
      rcases List.mem_cons.mp ha with ha | ha
      · subst ha; exact ⟨a, List.mem_cons_self a _, rfl⟩
      · by_cases hk : dedupKey a = dedupKey x
        · exact ⟨x, List.mem_cons_self x _, hk.symm⟩
        · have hseen2 : dedupKey a ∉ dedupKey x :: seen := by
            intro hmem
            rcases List.mem_cons.mp hmem with hmem | hmem
            · exact hk hmem
            · exact hseen hmem
          rcases ih (dedupKey x :: seen) a ha hseen2 with ⟨b, hb, hkey⟩
          exact ⟨b, List.mem_cons_of_mem x hb, hkey⟩

/-- Every emitted article is the first input article bearing its key. -/
theorem removeDuplicatesAux_first (l : List Article) :
    ∀ seen b, b ∈ removeDuplicatesAux seen l →
      l.find? (fun x => dedupKey x == dedupKey b) = some b := by
  induction l with
  | nil => intro seen b hb; simp [removeDuplicatesAux] at hb
  | cons x rest ih =>
    intro seen b hb
    by_cases h : dedupKey x ∈ seen
    · rw [removeDuplicatesAux, if_pos h] at hb
      have hb2 := removeDuplicatesAux_not_seen rest seen b hb
      have hne : dedupKey x ≠ dedupKey b := by
        intro he
        exact hb2 (he ▸ h)
      rw [List.find?_cons_of_neg _ (by simp [hne])]
      exact ih seen b hb
    · rw [removeDuplicatesAux, if_neg h] at hb
      rcases List.mem_cons.mp hb with hb | hb
      · subst hb
        rw [List.find?_cons_of_pos _ (by simp)]
      · have hb2 := removeDuplicatesAux_not_seen rest (dedupKey x :: seen) b hb
        have hne : dedupKey x ≠ dedupKey b := by
          intro he
          exact hb2 (he ▸ List.mem_cons_self _ _)
        rw [List.find?_cons_of_neg _ (by simp [hne])]
        exact ih (dedupKey x :: seen) b hb

/-- C6: `removeDuplicates` keys articles by `lowercase(title) + "-" + url`
and keeps exactly one article per key: the result's keys are pairwise
distinct, the result is an in-order sublist of the input, every input key
survives, each survivor is the first input article bearing its key, and for
every input article exactly one survivor shares its key. -/
theorem removeDuplicates_first_per_key (l : List Article) :
    ((removeDuplicates l).map dedupKey).Nodup ∧
      List.Sublist (removeDuplicates l) l ∧
      (∀ a ∈ l, ∃ b ∈ removeDuplicates l, dedupKey b = dedupKey a) ∧
      (∀ b ∈ removeDuplicates l, l.find? (fun x => dedupKey x == dedupKey b) = some b) ∧
      (∀ a ∈ l, (removeDuplicates l).countP (fun x => dedupKey x == dedupKey a) = 1) := by
  have hnodup : ((removeDuplicates l).map dedupKey).Nodup :=
    removeDuplicatesAux_nodup_keys l []
  have hcovers : ∀ a ∈ l, ∃ b ∈ removeDuplicates l, dedupKey b = dedupKey a :=
    fun a ha => removeDuplicatesAux_covers l [] a ha (List.not_mem_nil _)
  refine ⟨hnodup, removeDuplicatesAux_sublist l [], hcovers,
    fun b hb => removeDuplicatesAux_first l [] b hb, fun a ha => ?_⟩
  rcases hcovers a ha with ⟨b, hb, hkey⟩
  have hcount : ((removeDuplicates l).map dedupKey).count (dedupKey a) = 1 := by
    have hle := List.nodup_iff_count_le_one.mp hnodup (dedupKey a)
    have hmem : dedupKey a ∈ (removeDuplicates l).map dedupKey :=
      List.mem_map.mpr ⟨b, hb, hkey⟩
    have hpos := List.count_pos_iff.mpr hmem
    omega
  rw [List.count_eq_countP, List.countP_map] at hcount
  exact hcount

/-- Stable insertion permutes: inserting an article yields exactly the
article prepended to the run, up to order. -/
theorem insertSorted_perm (parseDate : String → Option Int) (a : Article) :
    ∀ l, (insertSorted parseDate a l).Perm (a :: l) := by
  intro l
  induction l with
  | nil => simp [insertSorted]
  | cons x xs ih =>
    by_cases h : cmpDate parseDate a x ≤ 0
    · rw [insertSorted, if_pos h]
    · rw [insertSorted, if_neg h]
      exact (ih.cons x).trans (List.Perm.swap a x xs)

/-- C8 helper: `sortByDate` permutes its input (and in particular is total:
no comparison over a bad date can fail). -/
theorem sortByDate_perm (parseDate : String → Option Int) (l : List Article) :
    (sortByDate parseDate l).Perm l := by
  induction l with
  | nil => simp [sortByDate]
  | cons x xs ih =>
    have : sortByDate parseDate (x :: xs) = insertSorted parseDate x (sortByDate parseDate xs) := rfl
    rw [this]
    exact (insertSorted_perm parseDate x _).trans (ih.cons x)

/-- On articles whose date value is defined, the comparator is the
difference of the numeric keys. -/
theorem cmpDate_eq_sub (parseDate : String → Option Int) (a x : Article)
    (ha : (dateValue parseDate a).isSome = true)
    (hx : (dateValue parseDate x).isSome = true) :
    cmpDate parseDate a x = valD parseDate x - valD parseDate a := by
  rcases Option.isSome_iff_exists.mp ha with ⟨ta, hta⟩
  rcases Option.isSome_iff_exists.mp hx with ⟨tx, htx⟩
  simp [cmpDate, valD, hta, htx]

/-- Stable insertion preserves descending order of the numeric keys when
every date value involved is defined. -/
theorem insertSorted_sorted (parseDate : String → Option Int) (a : Article)
    (ha : (dateValue parseDate a).isSome = true) :
    ∀ l, (∀ x ∈ l, (dateValue parseDate x).isSome = true) →
      l.Pairwise (fun p q => valD parseDate q ≤ valD parseDate p) →
      (insertSorted parseDate a l).Pairwise (fun p q => valD parseDate q ≤ valD parseDate p) := by
  intro l
  induction l with
  | nil => intro _ _; simp [insertSorted]
  | cons x xs ih =>
    intro hall hsorted
    have hx : (dateValue parseDate x).isSome = true := hall x (List.mem_cons_self x xs)
    rcases List.pairwise_cons.mp hsorted with ⟨hxall, hxs⟩
    by_cases h : cmpDate parseDate a x ≤ 0
    · rw [insertSorted, if_pos h]
      rw [cmpDate_eq_sub parseDate a x ha hx] at h
      refine List.pairwise_cons.mpr ⟨?_, hsorted⟩
      intro b hb
      rcases List.mem_cons.mp hb with hb | hb
      · subst hb; omega
      · have := hxall b hb
        omega
    · rw [insertSorted, if_neg h]
      rw [cmpDate_eq_sub parseDate a x ha hx] at h
      refine List.pairwise_cons.mpr ⟨?_, ih (fun y hy => hall y (List.mem_cons_of_mem x hy)) hxs⟩
      intro b hb
      have hb2 := (insertSorted_perm parseDate a xs).mem_iff.mp hb
      rcases List.mem_cons.mp hb2 with hb2 | hb2
      · subst hb2; omega
      · exact hxall b hb2

/-- C8 helper: on inputs all of whose date values are defined, `sortByDate`
is descending in the numeric keys. -/
theorem sortByDate_sorted (parseDate : String → Option Int) (l : List Article)
    (h : ∀ x ∈ l, (dateValue parseDate x).isSome = true) :
    (sortByDate parseDate l).Pairwise (fun p q => valD parseDate q ≤ valD parseDate p) := by
  induction l with
  | nil => simp [sortByDate]
  | cons x xs ih =>
    have hstep : sortByDate parseDate (x :: xs) = insertSorted parseDate x (sortByDate parseDate xs) := rfl
    rw [hstep]
    refine insertSorted_sorted parseDate x (h x (List.mem_cons_self x xs)) _ ?_
      (ih fun y hy => h y (List.mem_cons_of_mem x hy))
    intro y hy
    exact h y (List.mem_cons_of_mem x ((sortByDate_perm parseDate xs).mem_iff.mp hy))

/-- C8 (amended): `sortByDate` never raises on a bad date (it is a total
permutation of its input), treats a falsy `publishedDate` as the epoch `0`,
and orders the output descending by parsed date whenever every item's date
value is defined (absent-but-falsy dates included, as epoch); an item whose
`publishedDate` is present but unparsable compares as `NaN`, coerced to
"equal", and is left in place rather than sorted as oldest. -/
theorem sortByDate_perm_sorted (parseDate : String → Option Int) (l : List Article)
    (h : ∀ x ∈ l, (dateValue parseDate x).isSome = true) :
    (sortByDate parseDate l).Perm l ∧
      (sortByDate parseDate l).Pairwise (fun p q => valD parseDate q ≤ valD parseDate p) :=
  ⟨sortByDate_perm parseDate l, sortByDate_sorted parseDate l h⟩

/-- Witness for C8 (amended): two concrete dated articles are permuted into
descending order. -/
theorem sortByDate_perm_sorted_witness :
    (sortByDate c8ParseDate [c8Old, c8Good]).Perm [c8Old, c8Good] ∧
      (sortByDate c8ParseDate [c8Old, c8Good]).Pairwise
        (fun p q => valD c8ParseDate q ≤ valD c8ParseDate p) :=
  sortByDate_perm_sorted c8ParseDate [c8Old, c8Good] (by decide)

/-- C8 (counterexample): an article whose `publishedDate` is present but
unparsable (`NaN` comparator, coerced to equal) stays ahead of a newer,
parsable article instead of sorting as the oldest: the output is not the
descending order `[c8Good, c8Bad]` the claim requires. -/
theorem sortByDate_unparsable_not_oldest :
    sortByDate c8ParseDate [c8Bad, c8Good] = [c8Bad, c8Good] ∧
      sortByDate c8ParseDate [c8Bad, c8Good] ≠ [c8Good, c8Bad] ∧
      dateValue c8ParseDate c8Bad = none ∧
      dateValue c8ParseDate c8Good = some 1704100000 := by decide

/-- A stopped scraper performs no further cycle: the interval guard skips
every tick once `isRunning` is cleared. -/
theorem runCycles_stopped (cfg : ErrorHandlingCfg) (db : List Article)
    (s : ScraperState) (h : s.isRunning = false) :
    ∀ outcomes, runCycles cfg db s outcomes = s := by
  intro outcomes
  induction outcomes with
  | nil => rfl
  | cons o rest ih => rw [runCycles, if_neg (by simp [h])]; exact ih

/-- Scheduling decomposes over concatenation of tick outcomes. -/
theorem runCycles_append (cfg : ErrorHandlingCfg) (db : List Article) :
    ∀ l1 l2 s, runCycles cfg db s (l1 ++ l2) =
      runCycles cfg db (runCycles cfg db s l1) l2 := by
  intro l1
  induction l1 with
  | nil => intro l2 s; rfl
  | cons o rest ih =>
    intro l2 s
    by_cases h : s.isRunning = true
    · rw [List.cons_append, runCycles, if_pos h, runCycles, if_pos h]
      exact ih l2 _
    · rw [List.cons_append, runCycles, if_neg h, runCycles, if_neg h]
      exact ih l2 s

/-- A failing cycle below the threshold only bumps the counters. -/
theorem performScrape_threw_below (cfg : ErrorHandlingCfg) (db : List Article)
    (s : ScraperState) (h : s.consecutiveErrors + 1 < cfg.maxConsecutiveErrors) :
    performScrape cfg db s .threw =
      { s with totalScrapes := s.totalScrapes + 1,
               consecutiveErrors := s.consecutiveErrors + 1 } := by
  cases s
  simp only [performScrape]
  rw [if_neg (by simp at h ⊢; omega)]

/-- A failing cycle that reaches the threshold stops the scraper and exits
the host abnormally. -/
theorem performScrape_threw_stop (cfg : ErrorHandlingCfg) (db : List Article)
    (s : ScraperState) (h : cfg.maxConsecutiveErrors ≤ s.consecutiveErrors + 1) :
    performScrape cfg db s .threw =
      { s with totalScrapes := s.totalScrapes + 1,
               consecutiveErrors := s.consecutiveErrors + 1,
               isRunning := false, exitedAbnormally := true } := by
  cases s
  simp only [performScrape]
  rw [if_pos (by simp at h ⊢; omega)]

/-- Consecutive failing cycles below the threshold accumulate linearly. -/
theorem runCycles_threw_below (cfg : ErrorHandlingCfg) (db : List Article) :
    ∀ (k : Nat) (s : ScraperState), s.isRunning = true →
      s.consecutiveErrors + k < cfg.maxConsecutiveErrors →
      runCycles cfg db s (List.replicate k .threw) =
        { s with totalScrapes := s.totalScrapes + k,
                 consecutiveErrors := s.consecutiveErrors + k } := by
  intro k
  induction k with
  | zero =>
    intro s _ _
    cases s
    simp [runCycles]
  | succ n ih =>
    intro s hrun hlt
    rw [List.replicate_succ, runCycles, if_pos hrun]
    rw [performScrape_threw_below cfg db s (by omega)]
    rw [ih _ (by simp [hrun]) (by simp; omega)]
    cases s
    simp
    omega

/-- C4: a failing cycle increments `consecutiveErrors` and a completed cycle
resets it to 0; a failure that brings the counter to the configured
`maxConsecutiveErrors` clears `isRunning` and exits the host abnormally; a
stopped scraper never runs another cycle; and from a fresh start, after
exactly `maxConsecutiveErrors` consecutive failing cycles the scraper is
stopped with `totalScrapes = maxConsecutiveErrors`, and any further
scheduled ticks change nothing — no additional cycle is ever started. -/
theorem consecutive_errors_stop (cfg : ErrorHandlingCfg) (db : List Article)
    (hN : 0 < cfg.maxConsecutiveErrors) :
    (∀ s, (performScrape cfg db s .threw).consecutiveErrors = s.consecutiveErrors + 1) ∧
      (∀ s articles, (performScrape cfg db s (.fetched articles)).consecutiveErrors = 0) ∧
      (∀ s, cfg.maxConsecutiveErrors ≤ s.consecutiveErrors + 1 →
        (performScrape cfg db s .threw).isRunning = false ∧
          (performScrape cfg db s .threw).exitedAbnormally = true) ∧
      (∀ s, s.isRunning = false → ∀ outcomes, runCycles cfg db s outcomes = s) ∧
      ((runCycles cfg db initialScraperState
          (List.replicate cfg.maxConsecutiveErrors .threw)).isRunning = false ∧
        (runCycles cfg db initialScraperState
          (List.replicate cfg.maxConsecutiveErrors .threw)).exitedAbnormally = true ∧
        (runCycles cfg db initialScraperState
          (List.replicate cfg.maxConsecutiveErrors .threw)).totalScrapes
            = cfg.maxConsecutiveErrors) ∧
      (∀ rest, runCycles cfg db initialScraperState
          (List.replicate cfg.maxConsecutiveErrors .threw ++ rest)
        = runCycles cfg db initialScraperState
            (List.replicate cfg.maxConsecutiveErrors .threw)) := by
  have hfinal : runCycles cfg db initialScraperState
      (List.replicate cfg.maxConsecutiveErrors .threw) =
      { initialScraperState with
          totalScrapes := cfg.maxConsecutiveErrors,
          consecutiveErrors := cfg.maxConsecutiveErrors,
          isRunning := false, exitedAbnormally := true } := by
    obtain ⟨n, hn⟩ : ∃ n, cfg.maxConsecutiveErrors = n + 1 :=
      ⟨cfg.maxConsecutiveErrors - 1, by omega⟩
    rw [hn, List.replicate_succ', runCycles_append]
    rw [runCycles_threw_below cfg db n initialScraperState rfl (by simp [initialScraperState]; omega)]
    have hrun2 : ({ initialScraperState with
        totalScrapes := initialScraperState.totalScrapes + n,
        consecutiveErrors := initialScraperState.consecutiveErrors + n} : ScraperState).isRunning = true := rfl
    rw [runCycles, if_pos hrun2]
    rw [performScrape_threw_stop cfg db _ (by simp [initialScraperState]; omega)]
    simp [initialScraperState, runCycles]
  refine ⟨?_, ?_, ?_, ?_, ?_, ?_⟩
  · intro s
    by_cases h : cfg.maxConsecutiveErrors ≤ s.consecutiveErrors + 1
    · rw [performScrape_threw_stop cfg db s h]
    · rw [performScrape_threw_below cfg db s (by omega)]
  · intro s articles
    simp [performScrape]
  · intro s h
    rw [performScrape_threw_stop cfg db s h]
    exact ⟨rfl, rfl⟩
  · exact fun s h outcomes => runCycles_stopped cfg db s h outcomes
  · rw [hfinal]
    exact ⟨rfl, rfl, rfl⟩
  · intro rest
    rw [runCycles_append, hfinal]
    exact runCycles_stopped cfg db _ rfl rest

/-- Witness for C4: with the shipped configuration (threshold 10) and an
empty table, ten consecutive failing cycles from a fresh start leave the
scraper stopped, the host exited abnormally, and exactly ten cycles run. -/
theorem consecutive_errors_stop_witness :
    (runCycles continuousErrorHandling [] initialScraperState
        (List.replicate 10 .threw)).isRunning = false ∧
      (runCycles continuousErrorHandling [] initialScraperState
        (List.replicate 10 .threw)).exitedAbnormally = true ∧
      (runCycles continuousErrorHandling [] initialScraperState
        (List.replicate 10 .threw)).totalScrapes = 10 :=
  (consecutive_errors_stop continuousErrorHandling [] (by decide)).2.2.2.2.1

/-- Shape of every error `fetchSource` propagates: the parsing failure
message wrapped with the source's name. -/
theorem fetchSource_error_shape (fmtDate : String → String) (source : FeedSource)
    (pr : Except String (List FeedItem)) (e : String)
    (h : fetchSource fmtDate source pr = .error e) :
    ∃ msg, e = "Failed to fetch " ++ source.name ++ ": " ++ msg := by
  cases pr with
  | ok items => simp [fetchSource] at h
  | error msg =>
    simp [fetchSource] at h
    exact ⟨msg, h.symm⟩

/-- Full characterization of the retry loop from attempt number `attempt`
with `rem` loop iterations left: the attempts made form the contiguous
range from `attempt`; a backoff of `1000 × j` is awaited after each failed
non-final attempt `j`; an `ok` result is the first success, every earlier
attempt having failed; the loop ends in an error exactly when every attempt
fails, and the propagated error is the final attempt's. -/
theorem retryAux_spec (fetch : Nat → Except String (List Article)) :
    ∀ rem, 1 ≤ rem → ∀ attempt,
      (∃ k, 1 ≤ k ∧ k ≤ rem ∧ (retryAux fetch attempt rem).2.1 = List.range' attempt k) ∧
      ((retryAux fetch attempt rem).2.2 =
        (retryAux fetch attempt rem).2.1.dropLast.map (fun i => 1000 * i)) ∧
      (∀ v, (retryAux fetch attempt rem).1 = some (.ok v) →
        ∃ k, 1 ≤ k ∧ k ≤ rem ∧ (retryAux fetch attempt rem).2.1 = List.range' attempt k ∧
          fetch (attempt + k - 1) = .ok v ∧
          ∀ j, attempt ≤ j → j < attempt + k - 1 → ∃ e, fetch j = .error e) ∧
      ((∃ e, (retryAux fetch attempt rem).1 = some (.error e)) ↔
        (∀ j, attempt ≤ j → j < attempt + rem → ∃ e, fetch j = .error e)) ∧
      (∀ e, (retryAux fetch attempt rem).1 = some (.error e) →
        fetch (attempt + rem - 1) = .error e) := by
  intro rem
  induction rem with
  | zero => intro h; exact absurd h (by omega)
  | succ r ih =>
    intro _ attempt
    cases hf : fetch attempt with
    | ok v =>
      simp only [retryAux, hf]
      refine ⟨⟨1, by omega, by omega, rfl⟩, rfl, ?_, ?_, ?_⟩
      · intro v' hv
        have hv' : v = v' := by simpa using hv
        subst hv'
        refine ⟨1, by omega, by omega, rfl, by simpa using hf, ?_⟩
        intro j hj1 hj2
        omega
      · constructor
        · intro hex
          rcases hex with ⟨e, he⟩
          simp at he
        · intro hall
          rcases hall attempt (by omega) (by omega) with ⟨e, he⟩
          rw [hf] at he
          simp at he
      · intro e he
        simp at he
    | error e0 =>
      by_cases hr : r = 0
      · subst hr
        simp only [retryAux, hf, if_pos rfl]
        refine ⟨⟨1, by omega, by omega, rfl⟩, rfl, ?_, ?_, ?_⟩
        · intro v hv
          simp at hv
        · constructor
          · intro _ j hj1 hj2
            have : j = attempt := by omega
            subst this
            exact ⟨e0, hf⟩
          · intro _
            exact ⟨e0, rfl⟩
        · intro e he
          have : e0 = e := by simpa using he
          subst this
          simpa using hf
      · have IH := ih (by omega) (attempt + 1)
        rcases IH with ⟨⟨k', hk1, hk2, hatts⟩, hds, hok, hiff, hlast⟩
        simp only [retryAux, hf, if_neg hr]
        refine ⟨?_, ?_, ?_, ?_, ?_⟩
        · refine ⟨k' + 1, by omega, by omega, ?_⟩
          rw [hatts]
          exact (List.range'_succ attempt k' 1).symm
        · obtain ⟨k'', rfl⟩ : ∃ k'', k' = k'' + 1 := ⟨k' - 1, by omega⟩
          rw [hds, hatts, List.range'_succ]
          rfl
        · intro v hv
          rcases hok v hv with ⟨k2, hk21, hk22, hatts2, hfk, hprev⟩
          refine ⟨k2 + 1, by omega, by omega, ?_, ?_, ?_⟩
          · rw [hatts2]
            exact (List.range'_succ attempt k2 1).symm
          · have hidx : attempt + (k2 + 1) - 1 = attempt + 1 + k2 - 1 := by omega
            rw [hidx]
            exact hfk
          · intro j hj1 hj2
            rcases Nat.eq_or_lt_of_le hj1 with hje | hje
            · exact ⟨e0, hje ▸ hf⟩
            · exact hprev j (by omega) (by omega)
        · constructor
          · intro hex j hj1 hj2
            rcases Nat.eq_or_lt_of_le hj1 with hje | hje
            · exact ⟨e0, hje ▸ hf⟩
            · exact hiff.mp hex j (by omega) (by omega)
          · intro hall
            exact hiff.mpr fun j hj1 hj2 => hall j (by omega) (by omega)
        · intro e he
          have hidx : attempt + (r + 1) - 1 = attempt + 1 + r - 1 := by omega
          rw [hidx]
          exact hlast e he

/-- The per-source loop of `fetchAllNews` records in `failedSources` exactly
the names of the sources whose retried fetch ended in an error — a failed
source never aborts the loop. -/
theorem foldl_fetchStep_failed (cfg : TimeFilteringCfg) (parseDate : String → Option Int)
    (now : Int) (fmtDate : String → String)
    (parseAt : FeedSource → Nat → Except String (List FeedItem)) :
    ∀ (sources : List FeedSource) (acc : List Article × List String),
      (sources.foldl (fetchStep cfg parseDate now fmtDate parseAt) acc).2 =
        acc.2 ++ (sources.filter (sourceFailed fmtDate parseAt)).map FeedSource.name := by
  intro sources
  induction sources with
  | nil => intro acc; simp
  | cons src rest ih =>
    intro acc
    rw [List.foldl_cons]
    cases hca : (fetchSourceWithRetry (fun j => fetchSource fmtDate src (parseAt src j)) 3).1 with
    | none =>
      rw [ih]
      simp [fetchStep, hca, sourceFailed]
    | some res =>
      cases res with
      | ok articles =>
        rw [ih]
        simp [fetchStep, hca, sourceFailed]
      | error e =>
        rw [ih]
        simp [fetchStep, hca, sourceFailed]

/-- C7: for every source, the retried fetch makes at most `m` attempts
(attempt numbers form the contiguous range from 1), awaits a backoff of
`1000 × attemptNumber` milliseconds after each failed non-final attempt,
returns the first successful result (every earlier attempt having failed),
and propagates an error — the final attempt's, carrying the source name and
underlying cause — exactly when all attempts fail; the caller `fetchAllNews`
records precisely the failed sources' names and continues across them. -/
theorem fetchSourceWithRetry_spec (fmtDate : String → String) (source : FeedSource)
    (parseAt : Nat → Except String (List FeedItem)) (m : Nat) (hm : 1 ≤ m)
    (cfg : TimeFilteringCfg) (parseDate : String → Option Int) (now : Int)
    (sources : List FeedSource)
    (parseAtS : FeedSource → Nat → Except String (List FeedItem)) :
    (∃ k, 1 ≤ k ∧ k ≤ m ∧
      (fetchSourceWithRetry (sourceFetch fmtDate source parseAt) m).2.1 = List.range' 1 k) ∧
    ((fetchSourceWithRetry (sourceFetch fmtDate source parseAt) m).2.2 =
      (fetchSourceWithRetry (sourceFetch fmtDate source parseAt) m).2.1.dropLast.map
        (fun i => 1000 * i)) ∧
    (∀ v, (fetchSourceWithRetry (sourceFetch fmtDate source parseAt) m).1 = some (.ok v) →
      ∃ k, 1 ≤ k ∧ k ≤ m ∧
        (fetchSourceWithRetry (sourceFetch fmtDate source parseAt) m).2.1 = List.range' 1 k ∧
        sourceFetch fmtDate source parseAt k = .ok v ∧
        ∀ j, 1 ≤ j → j < k → ∃ e, sourceFetch fmtDate source parseAt j = .error e) ∧
    ((∃ e, (fetchSourceWithRetry (sourceFetch fmtDate source parseAt) m).1 = some (.error e)) ↔
      ∀ j, 1 ≤ j → j ≤ m → ∃ e, sourceFetch fmtDate source parseAt j = .error e) ∧
    (∀ e, (fetchSourceWithRetry (sourceFetch fmtDate source parseAt) m).1 = some (.error e) →
      sourceFetch fmtDate source parseAt m = .error e ∧
        ∃ msg, e = "Failed to fetch " ++ source.name ++ ": " ++ msg) ∧
    ((fetchAllNews cfg parseDate now fmtDate sources parseAtS).2 =
      (sources.filter (sourceFailed fmtDate parseAtS)).map FeedSource.name) := by
  have H := retryAux_spec (sourceFetch fmtDate source parseAt) m hm 1
  rcases H with ⟨h1, h2, h3, h4, h5⟩
  refine ⟨h1, h2, ?_, ?_, ?_, ?_⟩
  · intro v hv
    rcases h3 v hv with ⟨k, hk1, hk2, hatts, hfk, hprev⟩
    refine ⟨k, hk1, hk2, hatts, ?_, ?_⟩
    · have hidx : 1 + k - 1 = k := by omega
      rwa [hidx] at hfk
    · intro j hj1 hj2
      exact hprev j hj1 (by omega)
  · constructor
    · intro hex j hj1 hj2
      exact h4.mp hex j hj1 (by omega)
    · intro hall
      exact h4.mpr fun j hj1 hj2 => hall j hj1 (by omega)
  · intro e he
    have hfe : sourceFetch fmtDate source parseAt m = .error e := by
      have hl := h5 e he
      have hidx : 1 + m - 1 = m := by omega
      rwa [hidx] at hl
    exact ⟨hfe, fetchSource_error_shape fmtDate source (parseAt m) e hfe⟩
  · have hf := foldl_fetchStep_failed cfg parseDate now fmtDate parseAtS sources ([], [])
    rw [show (fetchAllNews cfg parseDate now fmtDate sources parseAtS).2 =
      (sources.foldl (fetchStep cfg parseDate now fmtDate parseAtS) ([], [])).2 from rfl]
    rw [hf]
    simp

/-- Witness for C7: three always-failing attempts against a concrete source
make attempts 1, 2, 3. -/
theorem fetchSourceWithRetry_spec_witness :
    ∃ k, 1 ≤ k ∧ k ≤ 3 ∧
      (fetchSourceWithRetry (sourceFetch (fun s => s) c7Source c7ParseAt) 3).2.1 =
        List.range' 1 k :=
  (fetchSourceWithRetry_spec (fun s => s) c7Source c7ParseAt 3 (by decide)
    continuousTimeFiltering (fun _ => none) 0 [c7Source] (fun _ => c7ParseAt)).1
